import Mathlib

/-!
Verification of the DuckLake mutation/lifecycle engine against its
natural-language specification.

The development shallowly embeds the relevant C++ code:
* the type codec (`DuckLakeTypes::FromString` / `DuckLakeTypes::ToString`),
* the delete-vector registry (`DuckLakeDeleteMap`),
* the update operator (`DuckLakeUpdate` sink/combine/finalize/source),
* the cleanup table functions (`CleanupBind` / `DuckLakeCleanupExecute`),
* update planning (`DuckLakeCatalog::PlanUpdate`).

C++ `std::string` values are embedded as `List Char`; machine counters as
`Nat`; fallible code returns `Except DLError`.  External collaborators
(the metadata service, filesystem, columnar writer) are passed in as
explicit state or opaque function parameters.
-/

namespace DuckLake

/-- The error taxonomy of the embedded code.  The first four mirror the
DuckDB exception classes thrown in the sources; `stdInvalidArgument`
models `std::invalid_argument` escaping from `std::stoull`, which is not
a DuckDB exception class. -/
inductive DLError where
  | invalidInput (msg : String)
  | notImplemented (msg : String)
  | binderException (msg : String)
  | internalException (msg : String)
  | stdInvalidArgument
  deriving DecidableEq, Repr

instance {ε α : Type} [DecidableEq ε] [DecidableEq α] : DecidableEq (Except ε α) := fun a b =>
  match a, b with
  | .error e, .error f =>
    if h : e = f then .isTrue (by rw [h]) else .isFalse (by simp [h])
  | .error _, .ok _ => .isFalse (by simp)
  | .ok _, .error _ => .isFalse (by simp)
  | .ok x, .ok y =>
    if h : x = y then .isTrue (by rw [h]) else .isFalse (by simp [h])

/-! ## Type system (`common/ducklake_types.cpp`)

`LogicalTypeId` lists the DuckDB type ids the codec mentions.
`LogicalType` models DuckDB's `LogicalType`: a type id plus the extra
type information used by the codec (alias, decimal width/scale, string
collation). -/

inductive LogicalTypeId where
  | BOOLEAN | TINYINT | SMALLINT | INTEGER | BIGINT | HUGEINT
  | UTINYINT | USMALLINT | UINTEGER | UBIGINT | UHUGEINT
  | FLOAT | DOUBLE | DECIMAL | TIME | DATE | TIMESTAMP | TIMESTAMP_MS
  | TIMESTAMP_NS | TIMESTAMP_SEC | TIMESTAMP_TZ | TIME_TZ | INTERVAL
  | VARCHAR | BLOB | UUID | STRUCT | LIST | MAP
  deriving DecidableEq, Repr

structure LogicalType where
  id : LogicalTypeId
  typeAlias : Option (List Char) := none
  decimalWidth : Nat := 0
  decimalScale : Nat := 0
  collation : List Char := []
  deriving DecidableEq, Repr

/-- A plain type carrying only a type id. -/
def LogicalType.base (id : LogicalTypeId) : LogicalType := { id := id }

/-- `LogicalType::DECIMAL(width, scale)`. -/
def LogicalType.DECIMAL (width scale : Nat) : LogicalType :=
  { id := .DECIMAL, decimalWidth := width, decimalScale := scale }

/-- `LogicalType::JSON()`: a `VARCHAR` carrying the `JSON` alias. -/
def JSONType : LogicalType := { id := .VARCHAR, typeAlias := some "JSON".data }

/-- The geometry type built by `ParseBaseType`: a `BLOB` with alias `GEOMETRY`. -/
def GeometryType : LogicalType := { id := .BLOB, typeAlias := some "GEOMETRY".data }

/-- A `VARCHAR` carrying a collation (DuckDB `LogicalType::VARCHAR_COLLATION`). -/
def LogicalType.varcharWithCollation (coll : List Char) : LogicalType :=
  { id := .VARCHAR, collation := coll }

def LogicalType.HasAlias (t : LogicalType) : Bool := t.typeAlias.isSome

/-- `LogicalType::IsJSONType`: the type carries the `JSON` alias. -/
def LogicalType.IsJSONType (t : LogicalType) : Bool := t.typeAlias == some "JSON".data

/-- ASCII lower-casing of one character, as done by `StringUtil::CharacterToLower`. -/
def asciiToLower (c : Char) : Char :=
  if 'A' ≤ c ∧ c ≤ 'Z' then Char.ofNat (c.toNat + 32) else c

/-- `StringUtil::CIEquals`: case-insensitive ASCII string equality. -/
def ciEquals (a b : List Char) : Bool :=
  a.map asciiToLower == b.map asciiToLower

/-- The codec's closed vocabulary `DUCKLAKE_TYPES` (name, type id), in
declaration order. -/
def DUCKLAKE_TYPES : List (List Char × LogicalTypeId) :=
  [("boolean".data, .BOOLEAN),
   ("int8".data, .TINYINT),
   ("int16".data, .SMALLINT),
   ("int32".data, .INTEGER),
   ("int64".data, .BIGINT),
   ("int128".data, .HUGEINT),
   ("uint8".data, .UTINYINT),
   ("uint16".data, .USMALLINT),
   ("uint32".data, .UINTEGER),
   ("uint64".data, .UBIGINT),
   ("uint128".data, .UHUGEINT),
   ("float32".data, .FLOAT),
   ("float64".data, .DOUBLE),
   ("decimal".data, .DECIMAL),
   ("time".data, .TIME),
   ("date".data, .DATE),
   ("timestamp".data, .TIMESTAMP),
   ("timestamp_us".data, .TIMESTAMP),
   ("timestamp_ms".data, .TIMESTAMP_MS),
   ("timestamp_ns".data, .TIMESTAMP_NS),
   ("timestamp_s".data, .TIMESTAMP_SEC),
   ("timestamptz".data, .TIMESTAMP_TZ),
   ("timetz".data, .TIME_TZ),
   ("interval".data, .INTERVAL),
   ("varchar".data, .VARCHAR),
   ("blob".data, .BLOB),
   ("uuid".data, .UUID)]

/-- `ParseBaseType`: first case-insensitive vocabulary match, then the
`json` / `geometry` aliases, otherwise `InvalidInputException`. -/
def ParseBaseType (str : List Char) : Except DLError LogicalType :=
  match DUCKLAKE_TYPES.find? (fun p => ciEquals str p.1) with
  | some p => .ok (LogicalType.base p.2)
  | none =>
    if ciEquals str "json".data then .ok JSONType
    else if ciEquals str "geometry".data then .ok GeometryType
    else .error (.invalidInput "Failed to parse DuckLake type - unsupported type")

/-- `ToStringBaseType`: first vocabulary entry with a matching type id,
otherwise `InvalidInputException`. -/
def ToStringBaseType (t : LogicalType) : Except DLError (List Char) :=
  match DUCKLAKE_TYPES.find? (fun p => t.id == p.2) with
  | some p => .ok p.1
  | none => .error (.invalidInput "Failed to convert DuckDB type to DuckLake - unsupported type")

/-- One decimal digit as a character (`0..9`; values ≥ 9 clamp to `9`,
unreachable for actual digits). -/
def digitChar (d : Nat) : Char :=
  if d = 0 then '0' else if d = 1 then '1' else if d = 2 then '2'
  else if d = 3 then '3' else if d = 4 then '4' else if d = 5 then '5'
  else if d = 6 then '6' else if d = 7 then '7' else if d = 8 then '8' else '9'

/-- Little-endian decimal digits of `n`, with `fuel ≥ n` guaranteeing
termination (structural recursion so that the kernel can evaluate it);
equals `(Nat.digits 10 n).map digitChar` (proved below). -/
def natDigitsAux : Nat → Nat → List Char
  | 0, _ => []
  | _ + 1, 0 => []
  | fuel + 1, n + 1 => digitChar ((n + 1) % 10) :: natDigitsAux fuel ((n + 1) / 10)

/-- `duckdb::to_string` on an unsigned integer (C++ `std::to_string`). -/
def natToChars (n : Nat) : List Char :=
  if n = 0 then ['0'] else (natDigitsAux n n).reverse

def isDigitChar (c : Char) : Bool := decide ('0' ≤ c) && decide (c ≤ '9')

def charDigitVal (c : Char) : Nat := c.toNat - 48

/-- The accumulating digit loop of `std::stoull`: consume the longest
leading run of decimal digits. -/
def stoullLoop : List Char → Nat → Nat
  | [], acc => acc
  | c :: cs, acc => if isDigitChar c then stoullLoop cs (acc * 10 + charDigitVal c) else acc

/-- Modelled from `std::stoull`: parses the leading run of decimal
digits and errors with `std::invalid_argument` when the input does not
start with a digit.  (Leading whitespace/sign handling and the
`out_of_range` check are omitted: no input reaching `stoull` in this
codebase contains them for widths within the valid decimal range.) -/
def stoull (s : List Char) : Except DLError Nat :=
  match s with
  | [] => .error .stdInvalidArgument
  | c :: cs => if isDigitChar c then .ok (stoullLoop (c :: cs) 0) else .error .stdInvalidArgument

/-- The splitting loop of `StringUtil::SplitWithParentheses` (external
DuckDB helper): split on top-level commas, tracking parenthesis depth. -/
def splitWPAux : List Char → Nat → List Char → List (List Char)
  | [], _, cur => [cur.reverse]
  | c :: rest, depth, cur =>
    if c == ',' && depth == 0 then
      cur.reverse :: splitWPAux rest depth []
    else
      splitWPAux rest
        (if c == '(' then depth + 1 else if c == ')' then depth - 1 else depth)
        (c :: cur)

/-- `StringUtil::SplitWithParentheses` with the default delimiters. -/
def SplitWithParentheses (s : List Char) : List (List Char) := splitWPAux s 0 []

def startsWithStr (s p : List Char) : Bool := p.isPrefixOf s

def endsWithStr (s p : List Char) : Bool := p.reverse.isPrefixOf s.reverse

namespace DuckLakeTypes

/-- `DuckLakeTypes::FromString`. -/
def FromString (type : List Char) : Except DLError LogicalType :=
  if startsWithStr type "decimal(".data && endsWithStr type ")".data then
    -- decimal - parse width/scale
    let decimal_members_str := (type.drop 8).take (type.length - 9)
    let decimal_members_vect := SplitWithParentheses decimal_members_str
    if decimal_members_vect.length ≠ 2 then
      .error (.notImplemented "Invalid DECIMAL type - expected width and scale")
    else do
      let width ← stoull (decimal_members_vect.getD 0 [])
      let scale ← stoull (decimal_members_vect.getD 1 [])
      .ok (LogicalType.DECIMAL width scale)
  else ParseBaseType type

/-- `DuckLakeTypes::ToString`. -/
def ToString (t : LogicalType) : Except DLError (List Char) :=
  if t.HasAlias then
    if t.IsJSONType then .ok "json".data
    else if t.typeAlias == some "GEOMETRY".data && t.id == .BLOB then .ok "geometry".data
    else .error (.invalidInput "Unsupported user-defined type")
  else
    match t.id with
    | .STRUCT => .ok "struct".data
    | .LIST => .ok "list".data
    | .MAP => .ok "map".data
    | .DECIMAL =>
      .ok ("decimal(".data ++ natToChars t.decimalWidth ++ [','] ++ natToChars t.decimalScale ++ [')'])
    | .VARCHAR =>
      if !t.collation.isEmpty then
        .error (.invalidInput "Collations are not supported in DuckLake storage")
      else ToStringBaseType t
    | _ => ToStringBaseType t

end DuckLakeTypes


/-! ## Delete-vector registry (`storage/ducklake_delete.hpp`, `DuckLakeDeleteMap`)

`DuckLakeDeleteData` holds the set of row identifiers deleted from one
data file; we embed it as a `Finset Nat`.  The two `unordered_map`s are
embedded as association lists with `std::unordered_map` semantics:
`emplace` inserts only when the key is absent, `erase` removes the
key's entry.  The `mutex` guarding the maps is elided: the embedding is
of the sequential semantics of each operation. -/

/-- `std::unordered_map::emplace`: insert `(k, v)` only if `k` is absent;
an existing entry is left untouched and `v` is discarded. -/
def umapEmplace {β : Type} (m : List (List Char × β)) (k : List Char) (v : β) :
    List (List Char × β) :=
  match m.lookup k with
  | some _ => m
  | none => (k, v) :: m

/-- `DuckLakeFileListExtendedEntry` (metadata of a written delete
artifact); only the path key is relevant to the registry's behaviour. -/
structure DuckLakeFileListExtendedEntry where
  path : List Char
  deriving DecidableEq, Repr

structure DuckLakeDeleteMap where
  file_map : List (List Char × DuckLakeFileListExtendedEntry) := []
  delete_data_map : List (List Char × Finset Nat) := []
  deriving DecidableEq

/-- The registry at transaction start: both maps empty. -/
def DuckLakeDeleteMap.empty : DuckLakeDeleteMap := {}

/-- `DuckLakeDeleteMap::AddExtendedFileInfo`. -/
def DuckLakeDeleteMap.AddExtendedFileInfo (m : DuckLakeDeleteMap)
    (file_entry : DuckLakeFileListExtendedEntry) : DuckLakeDeleteMap :=
  { m with file_map := umapEmplace m.file_map file_entry.path file_entry }

/-- `DuckLakeDeleteMap::GetExtendedFileInfo`: `InternalException` when no
entry was recorded for the path. -/
def DuckLakeDeleteMap.GetExtendedFileInfo (m : DuckLakeDeleteMap) (filename : List Char) :
    Except DLError DuckLakeFileListExtendedEntry :=
  match m.file_map.lookup filename with
  | some entry => .ok entry
  | none => .error (.internalException "Could not find matching file for written delete file")

/-- `DuckLakeDeleteMap::GetDeleteData`. -/
def DuckLakeDeleteMap.GetDeleteData (m : DuckLakeDeleteMap) (filename : List Char) :
    Option (Finset Nat) :=
  m.delete_data_map.lookup filename

/-- `DuckLakeDeleteMap::ClearDeletes`: erase the file's entry. -/
def DuckLakeDeleteMap.ClearDeletes (m : DuckLakeDeleteMap) (filename : List Char) :
    DuckLakeDeleteMap :=
  { m with delete_data_map := m.delete_data_map.filter (fun p => !(p.1 == filename)) }

/-- `DuckLakeDeleteMap::AddDeleteData`: `delete_data_map.emplace(filename, delete_data)`. -/
def DuckLakeDeleteMap.AddDeleteData (m : DuckLakeDeleteMap) (filename : List Char)
    (delete_data : Finset Nat) : DuckLakeDeleteMap :=
  { m with delete_data_map := umapEmplace m.delete_data_map filename delete_data }

/-! ## Update pipeline (`storage/ducklake_update.cpp`)

Rows are identified by their row-identifier triple; we embed a row as an
abstract identifier (`Nat`).  A `DataChunk` is a `List Row`.  The child
`copy_op` and `delete_op` are parallel sinks that accumulate the chunks
sunk into them (the copy operator buffers rewritten rows in a
`ColumnDataCollection`, chunk by chunk; the delete operator accumulates
row-id triples); their per-thread local sink states live inside
`DuckLakeUpdateLocalState`, their global sink states inside
`DuckLakeUpdateGlobalState`. -/

abbrev Row := Nat

structure DuckLakeUpdateLocalState where
  /-- chunks this thread sank into `copy_op` (`copy_local_state`) -/
  copy_local : List (List Row) := []
  /-- chunks this thread sank into `delete_op` (`delete_local_state`) -/
  delete_local : List (List Row) := []
  /-- thread-local updated-row counter -/
  updated_count : Nat := 0
  deriving DecidableEq, Repr

structure DuckLakeUpdateGlobalState where
  /-- the atomic `total_updated_count` -/
  total_updated_count : Nat := 0
  /-- chunks combined into `copy_op`'s global sink state -/
  copy_global : List (List Row) := []
  /-- chunks combined into `delete_op`'s global sink state -/
  delete_global : List (List Row) := []
  /-- chunks sunk into `insert_op` during the finalize replay -/
  insert_sunk : List (List Row) := []
  deriving DecidableEq, Repr

namespace DuckLakeUpdate

/-- `DuckLakeUpdate::Sink`: executes the update expressions into
`insert_chunk` (same cardinality as the input chunk, same source rows),
sinks it into `copy_op`, references the three row-id columns into
`delete_chunk` (same cardinality) and sinks it into `delete_op`, then
adds the chunk size to the thread-local counter. -/
def Sink (l : DuckLakeUpdateLocalState) (chunk : List Row) : DuckLakeUpdateLocalState :=
  { copy_local := l.copy_local ++ [chunk],
    delete_local := l.delete_local ++ [chunk],
    updated_count := l.updated_count + chunk.length }

/-- `DuckLakeUpdate::Combine`: combines the child local sink states into
the child global sink states, then folds the thread-local count into the
atomic total.  (Both child `Combine` calls returned `FINISHED`; any
other result raises `InternalException`, which our accumulator children
never do.) -/
def Combine (g : DuckLakeUpdateGlobalState) (l : DuckLakeUpdateLocalState) :
    DuckLakeUpdateGlobalState :=
  { g with
    copy_global := g.copy_global ++ l.copy_local,
    delete_global := g.delete_global ++ l.delete_local,
    total_updated_count := g.total_updated_count + l.updated_count }

/-- `DuckLakeUpdate::Finalize`: synchronously drains every chunk the copy
operator buffered and sinks each into `insert_op`. -/
def Finalize (g : DuckLakeUpdateGlobalState) : DuckLakeUpdateGlobalState :=
  { g with insert_sunk := g.copy_global.foldl (fun acc chunk => acc ++ [chunk]) g.insert_sunk }

/-- `DuckLakeUpdate::GetData`: one single-row chunk holding the atomic
total as a `BIGINT`. -/
def GetData (g : DuckLakeUpdateGlobalState) : List Int :=
  [(g.total_updated_count : Int)]

/-- One worker thread: `Sink` once per input chunk, with purely local
state. -/
def runThread (chunks : List (List Row)) : DuckLakeUpdateLocalState :=
  chunks.foldl Sink {}

/-- A whole update execution: every thread sinks its chunks, the
per-thread states are folded into the global state at the combine
barrier, then `Finalize` replays the buffered rows into the insert. -/
def runUpdate (threads : List (List (List Row))) : DuckLakeUpdateGlobalState :=
  Finalize ((threads.map runThread).foldl Combine {})

end DuckLakeUpdate

/-! ## Cleanup table functions (`functions/ducklake_cleanup_files.cpp`) -/

inductive CleanupType where
  | OLD_FILES
  | ORPHANED_FILES
  deriving DecidableEq, Repr

/-- A named-parameter value (`duckdb::Value`) restricted to the types the
cleanup functions declare: `BOOLEAN` for `dry_run`/`cleanup_all`,
`TIMESTAMP_TZ` for `older_than`. -/
inductive ParamValue where
  | boolean (b : Bool)
  | timestampTz (t : Int)
  deriving DecidableEq, Repr

/-- `Value::GetValue<timestamp_tz_t>`; only ever called on the
`older_than` parameter, which is declared `TIMESTAMP_TZ`. -/
def ParamValue.getTimestampTz : ParamValue → Int
  | .timestampTz t => t
  | .boolean _ => 0

/-- The `timestamp_filter` string of `CleanupBindData`, kept symbolic:
either empty, the formatted explicit timestamp
(`Timestamp::ToString(timestamp_t(v))`), or the
`"NOW() - INTERVAL '<default>'"` form built from the configured default
interval. -/
inductive TimestampFilter where
  | empty
  | explicitTs (t : Int)
  | defaultInterval (s : List Char)
  deriving DecidableEq, Repr

structure DuckLakeFileForCleanup where
  path : List Char
  deriving DecidableEq, Repr

structure CleanupBindData where
  files : List DuckLakeFileForCleanup
  /-- If we are going to delete the files for real or not -/
  dry_run : Bool := false
  default_interval : Bool := false
  type : CleanupType
  timestamp_filter : TimestampFilter := .empty
  deriving DecidableEq, Repr

/-- The flag block of `CleanupBind`'s named-parameter loop
(`result->dry_run` plus the loop locals). -/
structure CleanupParamFlags where
  dry_run : Bool := false
  cleanup_all : Bool := false
  has_timestamp : Bool := false
  from_timestamp : Int := 0
  deriving DecidableEq, Repr

/-- The named-parameter loop of `CleanupBind`: each recognized name sets
its flag — the parameter's *value* is only read for `older_than`; an
unrecognized name raises `InternalException`. -/
def processCleanupParams :
    List (List Char × ParamValue) → CleanupParamFlags → Except DLError CleanupParamFlags
  | [], acc => .ok acc
  | (name, value) :: rest, acc =>
    if ciEquals name "dry_run".data then
      processCleanupParams rest { acc with dry_run := true }
    else if ciEquals name "cleanup_all".data then
      processCleanupParams rest { acc with cleanup_all := true }
    else if ciEquals name "older_than".data then
      processCleanupParams rest
        { acc with from_timestamp := value.getTimestampTz, has_timestamp := true }
    else
      .error (.internalException "Unsupported named parameter")

/-- A parameter name the cleanup bind loop recognizes. -/
def recognizedParam (name : List Char) : Prop :=
  ciEquals name "dry_run".data = true ∨ ciEquals name "cleanup_all".data = true ∨
    ciEquals name "older_than".data = true

instance (name : List Char) : Decidable (recognizedParam name) := by
  unfold recognizedParam
  infer_instance

/-- `CleanupBind`.  The metadata/catalog service
(`DuckLakeMetadataManager::GetFilesForCleanup`, an external collaborator
queried with the rendered `GetFilter()` string) is passed in as the
opaque function `getFiles`. -/
def CleanupBind (getFiles : CleanupType → TimestampFilter → List DuckLakeFileForCleanup)
    (named_parameters : List (List Char × ParamValue)) (type : CleanupType)
    (older_than_default : List Char) : Except DLError CleanupBindData := do
  let flags ← processCleanupParams named_parameters {}
  if (flags.cleanup_all == flags.has_timestamp && flags.cleanup_all == true) ||
      (flags.cleanup_all == flags.has_timestamp && flags.cleanup_all == false &&
        older_than_default.isEmpty) then
    .error (.invalidInput "either cleanup_all OR older_than must be specified")
  else
    let tf_di : TimestampFilter × Bool :=
      if flags.has_timestamp then (.explicitTs flags.from_timestamp, false)
      else if !flags.cleanup_all && !older_than_default.isEmpty then
        (.defaultInterval older_than_default, true)
      else (.empty, false)
    .ok { files := getFiles type tf_di.1,
          dry_run := flags.dry_run,
          default_interval := tf_di.2,
          type := type,
          timestamp_filter := tf_di.1 }

/-- `DuckLakeCleanupOldFilesBind`: no `older_than_default`. -/
def DuckLakeCleanupOldFilesBind
    (getFiles : CleanupType → TimestampFilter → List DuckLakeFileForCleanup)
    (named_parameters : List (List Char × ParamValue)) : Except DLError CleanupBindData :=
  CleanupBind getFiles named_parameters .OLD_FILES []

/-- `DuckLakeCleanupOrphanedFilesBind`: the default comes from the
`orphan_file_delete_older_than` config option (external catalog
configuration, passed in). -/
def DuckLakeCleanupOrphanedFilesBind
    (getFiles : CleanupType → TimestampFilter → List DuckLakeFileForCleanup)
    (older_than_config : List Char)
    (named_parameters : List (List Char × ParamValue)) : Except DLError CleanupBindData :=
  CleanupBind getFiles named_parameters .ORPHANED_FILES older_than_config

/-- `DuckLakeCleanupData`: the global table-function state. -/
structure DuckLakeCleanupData where
  offset : Nat := 0
  executed : Bool := false
  deriving DecidableEq, Repr

/-- The external world the cleanup execution mutates: the storage
filesystem (a set of file paths) and the catalog's
scheduled-for-cleanup rows (`ducklake_files_scheduled_for_deletion`). -/
structure CleanupWorld where
  fs : List (List Char)
  catalog_scheduled : List (List Char)
  deriving DecidableEq, Repr

/-- `FileSystem::TryRemoveFile`: best-effort removal — removing an
absent path is a tolerated no-op. -/
def tryRemoveFile (fs : List (List Char)) (path : List Char) : List (List Char) :=
  fs.filter (fun p => !(p == path))

/-- `DuckLakeMetadataManager::RemoveFilesScheduledForCleanup` (external
catalog service): delete the catalog rows of the given files. -/
def removeFilesScheduledForCleanup (catalog : List (List Char))
    (files : List DuckLakeFileForCleanup) : List (List Char) :=
  catalog.filter (fun row => !(files.any (fun f => f.path == row)))

def STANDARD_VECTOR_SIZE : Nat := 2048

/-- The world after the one-shot destructive block of
`DuckLakeCleanupExecute`: best-effort removal of every candidate file,
then (old-files only) removal of the corresponding catalog rows. -/
def cleanupMutate (data : CleanupBindData) (w : CleanupWorld) : CleanupWorld :=
  { fs := data.files.foldl (fun fs f => tryRemoveFile fs f.path) w.fs,
    catalog_scheduled :=
      if data.type = .OLD_FILES then
        removeFilesScheduledForCleanup w.catalog_scheduled data.files
      else w.catalog_scheduled }

/-- `DuckLakeCleanupExecute`: one source invocation.  Returns the new
global state, the new world, and the emitted chunk (one path per row,
at most `STANDARD_VECTOR_SIZE` rows). -/
def DuckLakeCleanupExecute (data : CleanupBindData) (state : DuckLakeCleanupData)
    (w : CleanupWorld) : DuckLakeCleanupData × CleanupWorld × List (List Char) :=
  if state.offset ≥ data.files.length then (state, w, [])
  else
    let sw : DuckLakeCleanupData × CleanupWorld :=
      if !state.executed && !data.dry_run then
        ({ state with executed := true }, cleanupMutate data w)
      else (state, w)
    let batch := ((data.files.drop sw.1.offset).take STANDARD_VECTOR_SIZE).map (·.path)
    ({ sw.1 with offset := sw.1.offset + batch.length }, sw.2, batch)

/-- The engine's source loop: call `DuckLakeCleanupExecute` until it
emits an empty chunk, concatenating the emitted rows.  `fuel` bounds the
iteration count (structural recursion; `data.files.length + 1` calls
always suffice, proved below). -/
def runCleanupFuel (data : CleanupBindData) :
    Nat → DuckLakeCleanupData → CleanupWorld → CleanupWorld × List (List Char)
  | 0, _, w => (w, [])
  | fuel + 1, state, w =>
    if state.offset ≥ data.files.length then (w, [])
    else
      let step := DuckLakeCleanupExecute data state w
      let rest := runCleanupFuel data fuel step.1 step.2.1
      (rest.1, step.2.2 ++ rest.2)

/-- A complete execution of a bound cleanup operation against world `w`. -/
def runCleanup (data : CleanupBindData) (w : CleanupWorld) : CleanupWorld × List (List Char) :=
  runCleanupFuel data (data.files.length + 1) {} w

/-! ## Update planning (`DuckLakeCatalog::PlanUpdate`) -/

inductive ExpressionType where
  | VALUE_DEFAULT
  | OTHER
  deriving DecidableEq, Repr

structure Expression where
  type : ExpressionType
  deriving DecidableEq, Repr

structure LogicalUpdateOp where
  return_chunk : Bool
  expressions : List Expression
  deriving DecidableEq, Repr

/-- The physical plan `PlanUpdate` builds on success.  The copy, delete
and insert operators are planned by external collaborators
(`DuckLakeInsert::PlanCopyForInsert`, `DuckLakeDelete::PlanDelete`,
`DuckLakeInsert::PlanInsert`, outside this core); the plan record simply
witnesses that construction was reached. -/
structure DuckLakeUpdatePlan where
  expressions : List Expression
  deriving DecidableEq, Repr

/-- `DuckLakeCatalog::PlanUpdate`: the two bind-time validations run
before any operator is constructed; only afterwards is the write plan
built. -/
def DuckLakeCatalog.PlanUpdate (op : LogicalUpdateOp) : Except DLError DuckLakeUpdatePlan :=
  if op.return_chunk then
    .error (.binderException "RETURNING clause not yet supported for updates of a DuckLake table")
  else if op.expressions.any (fun e => e.type == ExpressionType.VALUE_DEFAULT) then
    .error (.binderException "SET DEFAULT is not yet supported for updates of a DuckLake table")
  else
    .ok { expressions := op.expressions }

theorem isPrefixOf_append_self (p r : List Char) : p.isPrefixOf (p ++ r) = true := by
  induction p with
  | nil => cases r <;> rfl
  | cons a as ih => simp [List.isPrefixOf, ih]

theorem startsWithStr_append (p r : List Char) : startsWithStr (p ++ r) p = true :=
  isPrefixOf_append_self p r

theorem endsWithStr_concat (l : List Char) (c : Char) : endsWithStr (l ++ [c]) [c] = true := by
  simp [endsWithStr, List.isPrefixOf]

theorem isDigitChar_digitChar (d : Nat) : isDigitChar (digitChar d) = true := by
  unfold digitChar
  split_ifs <;> decide

theorem charDigitVal_digitChar (d : Nat) (h : d < 10) : charDigitVal (digitChar d) = d := by
  interval_cases d <;> decide

theorem not_special_of_isDigitChar {c : Char} (h : isDigitChar c = true) :
    (c == ',') = false ∧ (c == '(') = false ∧ (c == ')') = false := by
  simp only [isDigitChar, Bool.and_eq_true, decide_eq_true_eq] at h
  refine ⟨?_, ?_, ?_⟩ <;> (apply beq_eq_false_iff_ne.mpr; rintro rfl; revert h; decide)

theorem natDigitsAux_eq : ∀ fuel n, n ≤ fuel → natDigitsAux fuel n = (Nat.digits 10 n).map digitChar
  | 0, 0, _ => by simp [natDigitsAux]
  | 0, n + 1, h => absurd h (by omega)
  | _ + 1, 0, _ => by simp [natDigitsAux]
  | fuel + 1, n + 1, h => by
    rw [natDigitsAux, Nat.digits_def' (by norm_num : (1 : Nat) < 10) (Nat.succ_pos n),
      List.map_cons]
    congr 1
    exact natDigitsAux_eq fuel ((n + 1) / 10)
      (by have := Nat.div_lt_self (Nat.succ_pos n) (by norm_num : (1 : Nat) < 10); omega)

theorem mem_natDigitsAux_isDigit :
    ∀ fuel n c, c ∈ natDigitsAux fuel n → isDigitChar c = true
  | 0, _, _, h => by simp [natDigitsAux] at h
  | _ + 1, 0, _, h => by simp [natDigitsAux] at h
  | fuel + 1, n + 1, c, h => by
    rw [natDigitsAux] at h
    rcases List.mem_cons.mp h with h | h
    · rw [h]; exact isDigitChar_digitChar _
    · exact mem_natDigitsAux_isDigit fuel _ c h

theorem natToChars_all_digits (n : Nat) : ∀ c ∈ natToChars n, isDigitChar c = true := by
  intro c hc
  unfold natToChars at hc
  split at hc
  · simp at hc; rw [hc]; decide
  · exact mem_natDigitsAux_isDigit n n c (List.mem_reverse.mp hc)

theorem natToChars_ne_nil (n : Nat) : natToChars n ≠ [] := by
  unfold natToChars
  split
  · simp
  · rename_i h
    rcases Nat.exists_eq_succ_of_ne_zero h with ⟨m, rfl⟩
    rw [natDigitsAux]
    simp

theorem stoullLoop_eq_foldl :
    ∀ l acc, (∀ c ∈ l, isDigitChar c = true) →
      stoullLoop l acc = l.foldl (fun a c => a * 10 + charDigitVal c) acc := by
  intro l
  induction l with
  | nil => intro acc _; rfl
  | cons c cs ih =>
    intro acc h
    rw [stoullLoop, if_pos (h c (List.mem_cons_self c cs)), List.foldl_cons]
    exact ih _ (fun x hx => h x (List.mem_cons_of_mem c hx))

theorem foldl_rev_digits :
    ∀ (L : List Nat), (∀ d ∈ L, d < 10) → ∀ acc,
      ((L.map digitChar).reverse).foldl (fun a c => a * 10 + charDigitVal c) acc
        = acc * 10 ^ L.length + Nat.ofDigits 10 L := by
  intro L
  induction L with
  | nil => intro _ acc; simp [Nat.ofDigits_nil]
  | cons d L ih =>
    intro h acc
    rw [List.map_cons, List.reverse_cons, List.foldl_append,
      ih (fun x hx => h x (List.mem_cons_of_mem d hx)) acc,
      List.foldl_cons, List.foldl_nil,
      charDigitVal_digitChar d (h d (List.mem_cons_self d L)),
      Nat.ofDigits_cons, List.length_cons, pow_succ]
    ring

theorem stoull_natToChars (n : Nat) : stoull (natToChars n) = .ok n := by
  rcases Nat.eq_zero_or_pos n with rfl | hn
  · decide
  · have hne : natToChars n ≠ [] := natToChars_ne_nil n
    have hdig : ∀ c ∈ natToChars n, isDigitChar c = true := natToChars_all_digits n
    have hrepr : natToChars n = ((Nat.digits 10 n).map digitChar).reverse := by
      unfold natToChars
      rw [if_neg (by omega), natDigitsAux_eq n n le_rfl]
    rcases List.exists_cons_of_ne_nil hne with ⟨c, cs, hcons⟩
    rw [hcons, stoull, if_pos (hdig c (hcons ▸ List.mem_cons_self c cs)), ← hcons,
      stoullLoop_eq_foldl _ 0 hdig, hrepr,
      foldl_rev_digits _ (fun d hd => Nat.digits_lt_base (by norm_num) hd) 0]
    simp [Nat.ofDigits_digits]

theorem splitWPAux_no_special (s : List Char) (h : ∀ c ∈ s, isDigitChar c = true) :
    ∀ cur, splitWPAux s 0 cur = [cur.reverse ++ s] := by
  induction s with
  | nil => intro cur; simp [splitWPAux]
  | cons c rest ih =>
    intro cur
    obtain ⟨hc1, hc2, hc3⟩ := not_special_of_isDigitChar (h c (List.mem_cons_self c rest))
    rw [splitWPAux, hc1, hc2, hc3]
    simp only [Bool.false_and]
    rw [if_neg (by decide : ¬(false = true)), if_neg (by decide : ¬(false = true)),
      if_neg (by decide : ¬(false = true))]
    rw [ih (fun x hx => h x (List.mem_cons_of_mem c hx)) (c :: cur)]
    simp

theorem splitWP_digits_pair (a b : List Char)
    (ha : ∀ c ∈ a, isDigitChar c = true) (hb : ∀ c ∈ b, isDigitChar c = true) :
    SplitWithParentheses (a ++ ',' :: b) = [a, b] := by
  unfold SplitWithParentheses
  suffices h : ∀ cur, splitWPAux (a ++ ',' :: b) 0 cur = (cur.reverse ++ a) :: [b] by
    simpa using h []
  induction a with
  | nil =>
    intro cur
    rw [List.nil_append, splitWPAux]
    simp only [beq_self_eq_true, Bool.and_self, if_pos]
    rw [splitWPAux_no_special b hb []]
    simp
  | cons c rest ih =>
    intro cur
    obtain ⟨hc1, hc2, hc3⟩ := not_special_of_isDigitChar (ha c (List.mem_cons_self c rest))
    rw [List.cons_append, splitWPAux, hc1, hc2, hc3]
    simp only [Bool.false_and]
    rw [if_neg (by decide : ¬(false = true)), if_neg (by decide : ¬(false = true)),
      if_neg (by decide : ¬(false = true))]
    rw [ih (fun x hx => ha x (List.mem_cons_of_mem c hx)) (c :: cur)]
    simp

/-- Decoding the canonical decimal encoding recovers width and scale. -/
theorem FromString_decimal_encoding (W S : Nat) :
    DuckLakeTypes.FromString
        ("decimal(".data ++ natToChars W ++ [','] ++ natToChars S ++ [')'])
      = .ok (LogicalType.DECIMAL W S) := by
  have hW := natToChars_all_digits W
  have hS := natToChars_all_digits S
  set mid := natToChars W ++ ',' :: natToChars S with hmid
  have hE : "decimal(".data ++ natToChars W ++ [','] ++ natToChars S ++ [')']
      = "decimal(".data ++ (mid ++ [')']) := by
    simp [hmid]
  rw [hE]
  have hstart : startsWithStr ("decimal(".data ++ (mid ++ [')'])) "decimal(".data = true :=
    startsWithStr_append _ _
  have hend : endsWithStr ("decimal(".data ++ (mid ++ [')'])) ")".data = true := by
    have : "decimal(".data ++ (mid ++ [')']) = ("decimal(".data ++ mid) ++ [')'] := by simp
    rw [this]
    exact endsWithStr_concat _ _
  have hdrop : ("decimal(".data ++ (mid ++ [')'])).drop 8 = mid ++ [')'] := by
    have : ("decimal(".data).length = 8 := rfl
    rw [← this, List.drop_left]
  have hlen : ("decimal(".data ++ (mid ++ [')'])).length - 9 = mid.length := by
    simp
  have htake : (mid ++ [')']).take mid.length = mid :=
    List.take_left mid [')']
  have hsplit : SplitWithParentheses mid = [natToChars W, natToChars S] :=
    splitWP_digits_pair _ _ hW hS
  rw [DuckLakeTypes.FromString, hstart, hend]
  simp only [Bool.and_self, if_pos, hdrop, hlen, htake, hsplit]
  rw [if_neg (by simp)]
  simp only [List.getD, List.get?_cons_zero, List.get?_cons_succ, Option.getD_some,
    stoull_natToChars]
  rfl

example : DuckLakeTypes.FromString "decimal(10,2)".data = .ok (LogicalType.DECIMAL 10 2) := by decide

example : DuckLakeTypes.FromString "Timestamp".data = .ok (LogicalType.base .TIMESTAMP) := by decide

example : DuckLakeTypes.ToString (LogicalType.DECIMAL 10 2) = .ok "decimal(10,2)".data := by decide

example : DuckLakeTypes.FromString "decimal(10)".data
    = .error (.notImplemented "Invalid DECIMAL type - expected width and scale") := by decide

example : DuckLakeTypes.FromString "decimal(a,b)".data = .error .stdInvalidArgument := by decide

/-- C1: for every base type in the codec's closed vocabulary (every
`DUCKLAKE_TYPES` entry other than the parameterized `decimal`) and every
decimal type with valid width and scale (`38 ≥ W ≥ S ≥ 0`), decoding the
encoded canonical string yields the original type; the alias types
`json` and `geometry` canonicalize to one fixed string each, and
decoding those strings yields the canonical alias-carrying types. -/
theorem C1_type_codec_roundtrip (W S : Nat) (_hWS : S ≤ W) (_hW : W ≤ 38) :
    (∀ p ∈ DUCKLAKE_TYPES, p.2 ≠ LogicalTypeId.DECIMAL →
      (DuckLakeTypes.ToString (LogicalType.base p.2)).bind DuckLakeTypes.FromString
        = Except.ok (LogicalType.base p.2)) ∧
    (DuckLakeTypes.ToString (LogicalType.DECIMAL W S)).bind DuckLakeTypes.FromString
      = Except.ok (LogicalType.DECIMAL W S) ∧
    DuckLakeTypes.ToString JSONType = Except.ok "json".data ∧
    DuckLakeTypes.ToString GeometryType = Except.ok "geometry".data ∧
    DuckLakeTypes.FromString "json".data = Except.ok JSONType ∧
    DuckLakeTypes.FromString "geometry".data = Except.ok GeometryType := by
  refine ⟨by decide, ?_, by decide, by decide, by decide, by decide⟩
  have h : DuckLakeTypes.ToString (LogicalType.DECIMAL W S)
      = Except.ok ("decimal(".data ++ natToChars W ++ [','] ++ natToChars S ++ [')']) := rfl
  rw [h]
  exact FromString_decimal_encoding W S

/-- Witness for C1 at `decimal(10,2)`. -/
theorem C1_type_codec_roundtrip_witness :
    (2 ≤ 10 ∧ 10 ≤ 38) ∧
    (DuckLakeTypes.ToString (LogicalType.DECIMAL 10 2)).bind DuckLakeTypes.FromString
      = Except.ok (LogicalType.DECIMAL 10 2) :=
  ⟨⟨by decide, by decide⟩, (C1_type_codec_roundtrip 10 2 (by decide) (by decide)).2.1⟩

/-- C6 counterexample: `Decode("decimal(a,b)")` does not fail with the
malformed-decimal-spec error (`NotImplementedException`, raised only
when the member count differs from two); it fails with
`std::invalid_argument` escaping from `std::stoull("a")`. -/
theorem C6_counterexample :
    DuckLakeTypes.FromString "decimal(a,b)".data = Except.error DLError.stdInvalidArgument ∧
    DuckLakeTypes.FromString "decimal(a,b)".data
      ≠ Except.error (DLError.notImplemented "Invalid DECIMAL type - expected width and scale") := by
  decide

/-- C6 (amended): `Decode("decimal(10)")` fails with the
malformed-decimal-spec error; `Decode("decimal(a,b)")` also fails, but
with an invalid-argument error raised by integer parsing rather than
the malformed-decimal-spec error; `Decode("decimal(10,2)")` succeeds
with width 10 and scale 2. -/
theorem C6_decimal_parse :
    DuckLakeTypes.FromString "decimal(10)".data
      = Except.error (DLError.notImplemented "Invalid DECIMAL type - expected width and scale") ∧
    DuckLakeTypes.FromString "decimal(a,b)".data = Except.error DLError.stdInvalidArgument ∧
    DuckLakeTypes.FromString "decimal(10,2)".data = Except.ok (LogicalType.DECIMAL 10 2) := by
  decide

/-- C9: encoding a varchar carrying a non-default (non-empty) collation
fails with the user-facing collation error; encoding a varchar with the
default empty collation succeeds. -/
theorem C9_collation_rejected (coll : List Char) (h : coll ≠ []) :
    DuckLakeTypes.ToString (LogicalType.varcharWithCollation coll)
      = Except.error (DLError.invalidInput "Collations are not supported in DuckLake storage") ∧
    DuckLakeTypes.ToString (LogicalType.varcharWithCollation [])
      = Except.ok "varchar".data := by
  refine ⟨?_, by decide⟩
  have hne : (LogicalType.varcharWithCollation coll).collation.isEmpty = false := by
    cases coll with
    | nil => exact absurd rfl h
    | cons a as => rfl
  unfold DuckLakeTypes.ToString
  simp [LogicalType.HasAlias, LogicalType.varcharWithCollation, hne] at *
  exact fun hc => absurd hc hne

/-- Witness for C9 at collation `NOCASE`. -/
theorem C9_collation_rejected_witness :
    "NOCASE".data ≠ [] ∧
    DuckLakeTypes.ToString (LogicalType.varcharWithCollation "NOCASE".data)
      = Except.error (DLError.invalidInput "Collations are not supported in DuckLake storage") :=
  ⟨by decide, (C9_collation_rejected "NOCASE".data (by decide)).1⟩

theorem lookup_filter_out {β : Type} (l : List (List Char × β)) (k : List Char) :
    (l.filter (fun p => !(p.1 == k))).lookup k = none := by
  induction l with
  | nil => rfl
  | cons p rest ih =>
    obtain ⟨k1, v1⟩ := p
    by_cases hp : k1 = k
    · simp only [List.filter_cons, hp, beq_self_eq_true, Bool.not_true]
      rw [if_neg (by decide : ¬(false = true))]
      exact ih
    · have h1 : (k1 == k) = false := beq_eq_false_iff_ne.mpr hp
      have h2 : (k == k1) = false := beq_eq_false_iff_ne.mpr (fun he => hp he.symm)
      simp only [List.filter_cons, h1, Bool.not_false, if_true, List.lookup, h2]
      exact ih

/-- C7 counterexample: two successive `AddDeleteData` calls for the same
file do not union the row-id sets — the second call's delete data is
silently dropped (`unordered_map::emplace` does not overwrite), so the
stored vector is `{1}`, not the union `{1} ∪ {2}`. -/
theorem C7_counterexample :
    ((DuckLakeDeleteMap.empty.AddDeleteData "f".data {1}).AddDeleteData "f".data
        {2}).GetDeleteData "f".data = some {1} ∧
    ({1} : Finset Nat) ≠ ({1} ∪ {2} : Finset Nat) := by
  decide

/-- C7 (amended): `AddDeleteData` registers the delete data for a file
only when the file has none yet; when a delete vector already exists the
call leaves the registry unchanged and the supplied row ids are dropped
(not unioned).  `ClearDeletes` removes the file's vector. -/
theorem C7_add_delete_data (m : DuckLakeDeleteMap) (f : List Char) (v : Finset Nat) :
    (m.GetDeleteData f = none → (m.AddDeleteData f v).GetDeleteData f = some v) ∧
    (∀ w, m.GetDeleteData f = some w → m.AddDeleteData f v = m) ∧
    (m.ClearDeletes f).GetDeleteData f = none := by
  refine ⟨?_, ?_, ?_⟩
  · intro h
    unfold DuckLakeDeleteMap.GetDeleteData at h ⊢
    unfold DuckLakeDeleteMap.AddDeleteData umapEmplace
    rw [h]
    simp [List.lookup]
  · intro w h
    unfold DuckLakeDeleteMap.GetDeleteData at h
    unfold DuckLakeDeleteMap.AddDeleteData umapEmplace
    rw [h]
  · unfold DuckLakeDeleteMap.GetDeleteData DuckLakeDeleteMap.ClearDeletes
    exact lookup_filter_out m.delete_data_map f

/-- Witness for C7 (amended) on a concrete registry. -/
theorem C7_add_delete_data_witness :
    (DuckLakeDeleteMap.empty.AddDeleteData "f".data {3}).GetDeleteData "f".data = some {3} ∧
    (DuckLakeDeleteMap.empty.AddDeleteData "f".data {3}).AddDeleteData "f".data {4}
      = DuckLakeDeleteMap.empty.AddDeleteData "f".data {3} ∧
    ((DuckLakeDeleteMap.empty.AddDeleteData "f".data {3}).ClearDeletes
        "f".data).GetDeleteData "f".data = none :=
  ⟨(C7_add_delete_data DuckLakeDeleteMap.empty "f".data {3}).1 (by decide),
   (C7_add_delete_data (DuckLakeDeleteMap.empty.AddDeleteData "f".data {3}) "f".data {4}).2.1
     {3} (by decide),
   (C7_add_delete_data (DuckLakeDeleteMap.empty.AddDeleteData "f".data {3}) "f".data {4}).2.2⟩

theorem sinkFold_spec (chunks : List (List Row)) :
    ∀ l : DuckLakeUpdateLocalState,
      chunks.foldl DuckLakeUpdate.Sink l
        = { copy_local := l.copy_local ++ chunks,
            delete_local := l.delete_local ++ chunks,
            updated_count := l.updated_count + chunks.flatten.length } := by
  induction chunks with
  | nil => intro l; simp
  | cons c cs ih =>
    intro l
    rw [List.foldl_cons, ih]
    simp [DuckLakeUpdate.Sink, Nat.add_assoc]

theorem runThread_spec (chunks : List (List Row)) :
    DuckLakeUpdate.runThread chunks
      = { copy_local := chunks, delete_local := chunks,
          updated_count := chunks.flatten.length } := by
  unfold DuckLakeUpdate.runThread
  rw [sinkFold_spec]
  simp

theorem combineFold_spec (ls : List DuckLakeUpdateLocalState) :
    ∀ g : DuckLakeUpdateGlobalState,
      ls.foldl DuckLakeUpdate.Combine g
        = { total_updated_count :=
              g.total_updated_count + (ls.map (·.updated_count)).sum,
            copy_global := g.copy_global ++ (ls.map (·.copy_local)).flatten,
            delete_global := g.delete_global ++ (ls.map (·.delete_local)).flatten,
            insert_sunk := g.insert_sunk } := by
  induction ls with
  | nil => intro g; simp
  | cons x xs ih =>
    intro g
    rw [List.foldl_cons, ih]
    simp [DuckLakeUpdate.Combine, Nat.add_assoc]

theorem foldl_push_eq_append {α : Type} (l : List α) :
    ∀ acc : List α, l.foldl (fun a c => a ++ [c]) acc = acc ++ l := by
  induction l with
  | nil => intro acc; simp
  | cons x xs ih => intro acc; simp [ih]

theorem sum_flatten_length {α : Type} (l : List (List (List α))) :
    (l.map (fun t => t.flatten.length)).sum = l.flatten.flatten.length := by
  induction l with
  | nil => rfl
  | cons x xs ih => simp [List.flatten_cons, ih, Function.comp_def]

/-- C2: for every update over R input rows — distributed arbitrarily
over worker threads and chunks — the count reported as the update's
single-row result equals R: each `Sink` adds its chunk's size to the
thread-local counter, the counters are summed into the atomic total at
the combine barrier, and `GetData` returns exactly one row holding that
total; moreover the same input rows are each passed exactly once to the
delete (invalidate) operator and exactly once to the copy/insert
(register) path. -/
theorem C2_update_conservation (threads : List (List (List Row))) :
    DuckLakeUpdate.GetData (DuckLakeUpdate.runUpdate threads)
      = [(threads.flatten.flatten.length : Int)] ∧
    (DuckLakeUpdate.runUpdate threads).delete_global.flatten = threads.flatten.flatten ∧
    (DuckLakeUpdate.runUpdate threads).insert_sunk.flatten = threads.flatten.flatten := by
  have hmap : ∀ proj : DuckLakeUpdateLocalState → List (List Row),
      (∀ t, proj (DuckLakeUpdate.runThread t) = t) →
      (threads.map DuckLakeUpdate.runThread).map proj = threads := by
    intro proj hproj
    have hcomp : proj ∘ DuckLakeUpdate.runThread = id := funext fun t => hproj t
    rw [List.map_map, hcomp, List.map_id]
  have hrun : DuckLakeUpdate.runUpdate threads
      = { total_updated_count := threads.flatten.flatten.length,
          copy_global := threads.flatten,
          delete_global := threads.flatten,
          insert_sunk := threads.flatten } := by
    unfold DuckLakeUpdate.runUpdate DuckLakeUpdate.Finalize
    rw [combineFold_spec]
    rw [hmap (·.copy_local) (fun t => by rw [runThread_spec]),
      hmap (·.delete_local) (fun t => by rw [runThread_spec])]
    rw [List.map_map]
    have hcounts : ((·.updated_count) ∘ DuckLakeUpdate.runThread) =
        fun t : List (List Row) => t.flatten.length := by
      funext t
      show (DuckLakeUpdate.runThread t).updated_count = t.flatten.length
      rw [runThread_spec]
    rw [hcounts, sum_flatten_length]
    simp [foldl_push_eq_append]
  rw [hrun]
  exact ⟨rfl, rfl, rfl⟩

theorem ciEquals_distinct {b c : List Char} (a : List Char)
    (hbc : b.map asciiToLower ≠ c.map asciiToLower)
    (h : ciEquals a b = true) : ciEquals a c = false := by
  unfold ciEquals at h ⊢
  rw [beq_iff_eq] at h
  rw [beq_eq_false_iff_ne]
  intro hc
  exact hbc (h.symm.trans hc)

theorem processCleanupParams_spec :
    ∀ ps : List (List Char × ParamValue), (∀ p ∈ ps, recognizedParam p.1) →
    ∀ acc : CleanupParamFlags,
      ∃ flags, processCleanupParams ps acc = .ok flags ∧
        flags.cleanup_all
          = (acc.cleanup_all || ps.any (fun p => ciEquals p.1 "cleanup_all".data)) ∧
        flags.has_timestamp
          = (acc.has_timestamp || ps.any (fun p => ciEquals p.1 "older_than".data)) ∧
        flags.dry_run = (acc.dry_run || ps.any (fun p => ciEquals p.1 "dry_run".data)) := by
  intro ps
  induction ps with
  | nil => exact fun _ acc => ⟨acc, rfl, by simp, by simp, by simp⟩
  | cons p rest ih =>
    intro h acc
    obtain ⟨name, value⟩ := p
    have hrec := h (name, value) (List.mem_cons_self _ _)
    have hrest : ∀ q ∈ rest, recognizedParam q.1 := fun q hq => h q (List.mem_cons_of_mem _ hq)
    by_cases h1 : ciEquals name "dry_run".data = true
    · have h2 : ciEquals name "cleanup_all".data = false :=
        ciEquals_distinct name (by decide) h1
      have h3 : ciEquals name "older_than".data = false :=
        ciEquals_distinct name (by decide) h1
      obtain ⟨flags, hok, hca, hts, hdr⟩ := ih hrest { acc with dry_run := true }
      refine ⟨flags, ?_, ?_, ?_, ?_⟩
      · rw [processCleanupParams, if_pos h1]; exact hok
      · rw [hca]; simp [h2]
      · rw [hts]; simp [h3]
      · rw [hdr]; simp [h1]
    · by_cases h2 : ciEquals name "cleanup_all".data = true
      · have h3 : ciEquals name "older_than".data = false :=
          ciEquals_distinct name (by decide) h2
        obtain ⟨flags, hok, hca, hts, hdr⟩ := ih hrest { acc with cleanup_all := true }
        refine ⟨flags, ?_, ?_, ?_, ?_⟩
        · rw [processCleanupParams, if_neg h1, if_pos h2]; exact hok
        · rw [hca]; simp [h2]
        · rw [hts]; simp [h3]
        · rw [hdr]; simp [Bool.eq_false_iff.mpr h1]
      · have h3 : ciEquals name "older_than".data = true := by
          rcases hrec with ht | ht | ht
          · exact absurd ht h1
          · exact absurd ht h2
          · exact ht
        obtain ⟨flags, hok, hca, hts, hdr⟩ :=
          ih hrest { acc with from_timestamp := value.getTimestampTz, has_timestamp := true }
        refine ⟨flags, ?_, ?_, ?_, ?_⟩
        · rw [processCleanupParams, if_neg h1, if_neg h2, if_pos h3]; exact hok
        · rw [hca]; simp [Bool.eq_false_iff.mpr h2]
        · rw [hts]; simp [h3]
        · rw [hdr]; simp [Bool.eq_false_iff.mpr h1]

/-- C3: binding a cleanup operation fails with the user-facing
invalid-input error when both `cleanup_all` and `older_than` are
supplied, and when neither is supplied and no default retention
interval is configured; it succeeds when exactly one cutoff mode is
selected, or when neither is supplied but a (non-empty) default
interval exists — which only the orphan-cleanup entry point passes
(the old-files entry point always binds with the empty default). -/
theorem C3_cleanup_filter_exclusivity
    (getFiles : CleanupType → TimestampFilter → List DuckLakeFileForCleanup)
    (t : CleanupType) (ps : List (List Char × ParamValue)) (d : List Char)
    (h : ∀ p ∈ ps, recognizedParam p.1) :
    ((∃ r, CleanupBind getFiles ps t d = .ok r) ↔
      (ps.any (fun p => ciEquals p.1 "cleanup_all".data)
          ≠ ps.any (fun p => ciEquals p.1 "older_than".data) ∨
       (ps.any (fun p => ciEquals p.1 "cleanup_all".data) = false ∧
        ps.any (fun p => ciEquals p.1 "older_than".data) = false ∧ d ≠ []))) ∧
    (ps.any (fun p => ciEquals p.1 "cleanup_all".data) = true →
      ps.any (fun p => ciEquals p.1 "older_than".data) = true →
      CleanupBind getFiles ps t d
        = .error (.invalidInput "either cleanup_all OR older_than must be specified")) ∧
    DuckLakeCleanupOldFilesBind getFiles ps = CleanupBind getFiles ps .OLD_FILES [] ∧
    (∀ cfg, DuckLakeCleanupOrphanedFilesBind getFiles cfg ps
      = CleanupBind getFiles ps .ORPHANED_FILES cfg) := by
  refine ⟨?_, ?_, rfl, fun cfg => rfl⟩ <;>
  · obtain ⟨flags, hok, hca, hts, hdr⟩ := processCleanupParams_spec ps h {}
    have hca2 : flags.cleanup_all = ps.any (fun p => ciEquals p.1 "cleanup_all".data) := by
      simpa using hca
    have hts2 : flags.has_timestamp = ps.any (fun p => ciEquals p.1 "older_than".data) := by
      simpa using hts
    unfold CleanupBind
    rw [hok]
    simp only [Bind.bind, Except.bind, hca2, hts2]
    rcases Bool.eq_false_or_eq_true (ps.any fun p => ciEquals p.1 "cleanup_all".data) with
      hA | hA <;>
      rcases Bool.eq_false_or_eq_true (ps.any fun p => ciEquals p.1 "older_than".data) with
        hB | hB <;>
      rw [hA, hB] <;>
      simp only [beq_self_eq_true, Bool.true_and, Bool.and_self, Bool.false_and,
        Bool.and_false, Bool.or_false, Bool.false_or, Bool.true_or, Bool.or_self] <;>
      cases d with
        | nil => simp
        | cons x xs => simp

/-- Witness for C3: binding with only `older_than` succeeds. -/
theorem C3_cleanup_filter_exclusivity_witness :
    ∃ r, CleanupBind (fun _ _ => []) [("older_than".data, ParamValue.timestampTz 5)]
        CleanupType.OLD_FILES [] = .ok r :=
  ((C3_cleanup_filter_exclusivity (fun _ _ => []) .OLD_FILES
      [("older_than".data, ParamValue.timestampTz 5)] [] (by decide)).1).mpr (by decide)

theorem processCleanupParams_value_irrelevant
    (name : List Char) (hname : ciEquals name "older_than".data = false) (v w : ParamValue) :
    ∀ (ps1 ps2 : List (List Char × ParamValue)) (acc : CleanupParamFlags),
      processCleanupParams (ps1 ++ (name, v) :: ps2) acc
        = processCleanupParams (ps1 ++ (name, w) :: ps2) acc := by
  intro ps1
  induction ps1 with
  | nil =>
    intro ps2 acc
    simp only [List.nil_append]
    rw [processCleanupParams, processCleanupParams]
    by_cases h1 : ciEquals name "dry_run".data = true
    · rw [if_pos h1, if_pos h1]
    · rw [if_neg h1, if_neg h1]
      by_cases h2 : ciEquals name "cleanup_all".data = true
      · rw [if_pos h2, if_pos h2]
      · have h3 : ¬ciEquals name "older_than".data = true := by simp [hname]
        rw [if_neg h2, if_neg h2, if_neg h3, if_neg h3]
  | cons q rest ih =>
    intro ps2 acc
    obtain ⟨qname, qvalue⟩ := q
    simp only [List.cons_append]
    rw [processCleanupParams, processCleanupParams]
    by_cases h1 : ciEquals qname "dry_run".data = true
    · rw [if_pos h1, if_pos h1]; exact ih ps2 _
    · rw [if_neg h1, if_neg h1]
      by_cases h2 : ciEquals qname "cleanup_all".data = true
      · rw [if_pos h2, if_pos h2]; exact ih ps2 _
      · rw [if_neg h2, if_neg h2]
        by_cases h3 : ciEquals qname "older_than".data = true
        · rw [if_pos h3, if_pos h3]; exact ih ps2 _
        · rw [if_neg h3, if_neg h3]

/-- C8: for either cleanup bind, a named parameter other than
`older_than` enables its flag by mere presence — its supplied value is
never read.  In particular `dry_run := false` behaves identically to
`dry_run := true` (the bound data has `dry_run = true`), and
`cleanup_all := false` counts as selecting the `cleanup_all` cutoff
mode: combined with `older_than` it triggers the exclusivity error, and
alone it binds successfully with no timestamp filter. -/
theorem C8_flag_presence_not_value
    (getFiles : CleanupType → TimestampFilter → List DuckLakeFileForCleanup)
    (t : CleanupType) (d : List Char) (ps1 ps2 : List (List Char × ParamValue))
    (name : List Char) (v w : ParamValue) (ts : Int)
    (h : ciEquals name "older_than".data = false) :
    CleanupBind getFiles (ps1 ++ (name, v) :: ps2) t d
      = CleanupBind getFiles (ps1 ++ (name, w) :: ps2) t d ∧
    CleanupBind getFiles
        [("dry_run".data, ParamValue.boolean false),
         ("older_than".data, ParamValue.timestampTz ts)] t d
      = .ok { files := getFiles t (.explicitTs ts), dry_run := true,
              default_interval := false, type := t, timestamp_filter := .explicitTs ts } ∧
    CleanupBind getFiles
        [("cleanup_all".data, ParamValue.boolean false),
         ("older_than".data, ParamValue.timestampTz ts)] t []
      = .error (.invalidInput "either cleanup_all OR older_than must be specified") ∧
    CleanupBind getFiles [("cleanup_all".data, ParamValue.boolean false)] t []
      = .ok { files := getFiles t .empty, dry_run := false, default_interval := false,
              type := t, timestamp_filter := .empty } := by
  refine ⟨?_, rfl, rfl, rfl⟩
  unfold CleanupBind
  rw [processCleanupParams_value_irrelevant name h v w ps1 ps2 {}]

/-- Witness for C8: `dry_run := false` and `dry_run := true` bind
identically. -/
theorem C8_flag_presence_not_value_witness :
    ciEquals "dry_run".data "older_than".data = false ∧
    CleanupBind (fun _ _ => [])
        ([] ++ ("dry_run".data, ParamValue.boolean false)
          :: [("older_than".data, ParamValue.timestampTz 0)]) CleanupType.OLD_FILES []
      = CleanupBind (fun _ _ => [])
        ([] ++ ("dry_run".data, ParamValue.boolean true)
          :: [("older_than".data, ParamValue.timestampTz 0)]) CleanupType.OLD_FILES [] :=
  ⟨by decide,
   (C8_flag_presence_not_value (fun _ _ => []) .OLD_FILES [] []
      [("older_than".data, ParamValue.timestampTz 0)] "dry_run".data
      (ParamValue.boolean false) (ParamValue.boolean true) 0 (by decide)).1⟩

theorem take_length_take {α : Type} (l : List α) (k : Nat) :
    l.take ((l.take k).length) = l.take k := by
  rw [List.length_take]
  rcases le_total k l.length with h | h
  · rw [min_eq_left h]
  · rw [min_eq_right h, List.take_length, List.take_of_length_le h]

theorem take_append_drop_length {α : Type} (t : List α) (k : Nat) :
    t.take k ++ t.drop ((t.take k).length) = t := by
  have h := List.take_append_drop ((t.take k).length) t
  rw [take_length_take] at h
  exact h

theorem drop_chunk_decomp {α β : Type} (f : α → β) (l : List α) (o k : Nat) :
    ((l.drop o).take k).map f ++ (l.drop (o + ((l.drop o).take k).length)).map f
      = (l.drop o).map f := by
  rw [← List.map_append]
  congr 1
  rw [← List.drop_drop]
  exact take_append_drop_length (l.drop o) k

theorem cleanupExecute_mutating (data : CleanupBindData) (state : DuckLakeCleanupData)
    (w : CleanupWorld) (hoff : ¬ data.files.length ≤ state.offset)
    (hex : state.executed = false) (hdry : data.dry_run = false) :
    DuckLakeCleanupExecute data state w
      = ({ offset := state.offset +
             (((data.files.drop state.offset).take STANDARD_VECTOR_SIZE).map
               (fun f => f.path)).length,
           executed := true },
         cleanupMutate data w,
         ((data.files.drop state.offset).take STANDARD_VECTOR_SIZE).map (fun f => f.path)) := by
  unfold DuckLakeCleanupExecute
  rw [if_neg hoff, hex, hdry]
  rfl

theorem cleanupExecute_skipping (data : CleanupBindData) (state : DuckLakeCleanupData)
    (w : CleanupWorld) (hoff : ¬ data.files.length ≤ state.offset)
    (hskip : (!state.executed && !data.dry_run) = false) :
    DuckLakeCleanupExecute data state w
      = ({ state with offset := state.offset +
             (((data.files.drop state.offset).take STANDARD_VECTOR_SIZE).map
               (fun f => f.path)).length },
         w,
         ((data.files.drop state.offset).take STANDARD_VECTOR_SIZE).map (fun f => f.path)) := by
  unfold DuckLakeCleanupExecute
  rw [if_neg hoff, hskip]
  rfl

theorem batch_length_pos (data : CleanupBindData) (off : Nat)
    (hoff : ¬ data.files.length ≤ off) :
    1 ≤ (((data.files.drop off).take STANDARD_VECTOR_SIZE).map
      (fun f : DuckLakeFileForCleanup => f.path)).length := by
  rw [List.length_map, List.length_take, List.length_drop]
  unfold STANDARD_VECTOR_SIZE
  omega

/-- Full characterization of the cleanup source loop: the final world is
unchanged when the state was already executed, the bind was a dry run,
or there are no candidates left at the start; otherwise it is the
one-shot mutation.  The emitted rows are always exactly the remaining
candidate paths, one per row. -/
theorem runCleanupFuel_spec (data : CleanupBindData) :
    ∀ fuel (state : DuckLakeCleanupData) (w : CleanupWorld),
      data.files.length - state.offset < fuel →
      runCleanupFuel data fuel state w
        = (if state.executed = true ∨ data.dry_run = true ∨
              data.files.length ≤ state.offset
           then w else cleanupMutate data w,
           (data.files.drop state.offset).map (fun f => f.path)) := by
  intro fuel
  induction fuel with
  | zero => exact fun state w h => absurd h (Nat.not_lt_zero _)
  | succ fuel ih =>
    intro state w h
    rw [runCleanupFuel]
    by_cases hoff : data.files.length ≤ state.offset
    · rw [if_pos hoff, List.drop_eq_nil_of_le hoff]
      simp [hoff]
    · rw [if_neg hoff]
      have hblen := batch_length_pos data state.offset hoff
      have harith : data.files.length -
          (state.offset + (((data.files.drop state.offset).take STANDARD_VECTOR_SIZE).map
            (fun f => f.path)).length) < fuel := by omega
      by_cases hex : state.executed = false ∧ data.dry_run = false
      · simp only [cleanupExecute_mutating data state w hoff hex.1 hex.2]
        rw [ih { offset := state.offset +
              (((data.files.drop state.offset).take STANDARD_VECTOR_SIZE).map
                (fun f => f.path)).length, executed := true }
            (cleanupMutate data w) harith]
        simp only []
        rw [if_pos (by simp)]
        rw [if_neg (by simp [hex.1, hex.2, hoff])]
        refine congrArg _ ?_
        rw [List.length_map]
        exact drop_chunk_decomp _ data.files state.offset STANDARD_VECTOR_SIZE
      · have hskip : (!state.executed && !data.dry_run) = false := by
          rcases Bool.eq_false_or_eq_true state.executed with h1 | h1
          · simp [h1]
          · rcases Bool.eq_false_or_eq_true data.dry_run with h2 | h2
            · simp [h2]
            · exact absurd ⟨h1, h2⟩ hex
        have hcond : state.executed = true ∨ data.dry_run = true := by
          rcases Bool.eq_false_or_eq_true state.executed with h1 | h1
          · exact Or.inl h1
          · rcases Bool.eq_false_or_eq_true data.dry_run with h2 | h2
            · exact Or.inr h2
            · exact absurd ⟨h1, h2⟩ hex
        simp only [cleanupExecute_skipping data state w hoff hskip]
        rw [ih { state with offset := state.offset +
              (((data.files.drop state.offset).take STANDARD_VECTOR_SIZE).map
                (fun f => f.path)).length } w harith]
        simp only []
        rw [if_pos (by rcases hcond with h1 | h1; exacts [Or.inl h1, Or.inr (Or.inl h1)])]
        rw [if_pos (by rcases hcond with h1 | h1; exacts [Or.inl h1, Or.inr (Or.inl h1)])]
        refine congrArg _ ?_
        rw [List.length_map]
        exact drop_chunk_decomp _ data.files state.offset STANDARD_VECTOR_SIZE

theorem runCleanup_world (data : CleanupBindData) (w : CleanupWorld) :
    (runCleanup data w).1 = w ∨ (runCleanup data w).1 = cleanupMutate data w := by
  unfold runCleanup
  rw [runCleanupFuel_spec data _ {} w
    (by show data.files.length - 0 < data.files.length + 1; omega)]
  by_cases hc : (({} : DuckLakeCleanupData).executed = true ∨ data.dry_run = true ∨
      data.files.length ≤ ({} : DuckLakeCleanupData).offset)
  · rw [if_pos hc]; exact Or.inl rfl
  · rw [if_neg hc]; exact Or.inr rfl

theorem runCleanup_catalog_orphaned (data : CleanupBindData) (w : CleanupWorld)
    (h : data.type = CleanupType.ORPHANED_FILES) :
    (runCleanup data w).1.catalog_scheduled = w.catalog_scheduled := by
  rcases runCleanup_world data w with hw | hw <;> rw [hw]
  unfold cleanupMutate
  rw [h]
  simp

/-- C4: running either reclamation in dry-run mode performs no file
removal and no catalog-row removal — the filesystem and the catalog
rows come back unchanged — while still emitting the full list of
candidate paths, one path per output row. -/
theorem C4_dry_run_noop (data : CleanupBindData) (w : CleanupWorld)
    (h : data.dry_run = true) :
    runCleanup data w = (w, data.files.map (fun f => f.path)) := by
  unfold runCleanup
  rw [runCleanupFuel_spec data _ {} w
    (by show data.files.length - 0 < data.files.length + 1; omega)]
  rw [if_pos (Or.inr (Or.inl h))]
  rfl

/-- Witness for C4 on a one-candidate world. -/
theorem C4_dry_run_noop_witness :
    runCleanup { files := [{ path := "a".data }], dry_run := true, type := .OLD_FILES }
        { fs := ["a".data], catalog_scheduled := ["a".data] }
      = ({ fs := ["a".data], catalog_scheduled := ["a".data] }, [ "a".data ]) :=
  C4_dry_run_noop _ _ rfl

/-- C5: orphan-file reclamation never removes catalog rows — after any
execution of orphan cleanup the catalog rows are unchanged, while (with
dry-run disabled and a non-empty candidate list) the physical file
removals are attempted; the catalog-row removal step can change the
catalog only when the cleanup type is old-files. -/
theorem C5_orphan_never_mutates_catalog (data : CleanupBindData) (w : CleanupWorld)
    (h : data.type = CleanupType.ORPHANED_FILES) :
    (runCleanup data w).1.catalog_scheduled = w.catalog_scheduled ∧
    (data.dry_run = false → data.files ≠ [] →
      (runCleanup data w).1.fs
        = data.files.foldl (fun fs f => tryRemoveFile fs f.path) w.fs) ∧
    (∀ data2 w2, (runCleanup data2 w2).1.catalog_scheduled ≠ w2.catalog_scheduled →
      data2.type = CleanupType.OLD_FILES) := by
  refine ⟨runCleanup_catalog_orphaned data w h, ?_, ?_⟩
  · intro hdry hfiles
    unfold runCleanup
    rw [runCleanupFuel_spec data _ {} w
      (by show data.files.length - 0 < data.files.length + 1; omega)]
    rw [if_neg (by simp [hdry, hfiles])]
    rfl
  · intro data2 w2 hne
    cases htype : data2.type with
    | OLD_FILES => rfl
    | ORPHANED_FILES => exact absurd (runCleanup_catalog_orphaned data2 w2 htype) hne

/-- Witness for C5 on a concrete orphan cleanup: the catalog row
survives while the file is removed. -/
theorem C5_orphan_never_mutates_catalog_witness :
    (runCleanup { files := [{ path := "a".data }], type := .ORPHANED_FILES }
        { fs := ["a".data], catalog_scheduled := ["c".data] }).1.catalog_scheduled
      = ["c".data] :=
  (C5_orphan_never_mutates_catalog
    { files := [{ path := "a".data }], type := .ORPHANED_FILES }
    { fs := ["a".data], catalog_scheduled := ["c".data] } rfl).1

/-- C10: planning an UPDATE with a RETURNING clause, or with an explicit
DEFAULT value assignment in the SET list, is rejected with a user-facing
binder error before the write plan is constructed; with neither present
the plan is built. -/
theorem C10_plan_update_rejects (op : LogicalUpdateOp) :
    (op.return_chunk = true →
      DuckLakeCatalog.PlanUpdate op = .error
        (.binderException "RETURNING clause not yet supported for updates of a DuckLake table")) ∧
    (op.return_chunk = false →
      (∃ e ∈ op.expressions, e.type = ExpressionType.VALUE_DEFAULT) →
      DuckLakeCatalog.PlanUpdate op = .error
        (.binderException "SET DEFAULT is not yet supported for updates of a DuckLake table")) ∧
    (op.return_chunk = false →
      (∀ e ∈ op.expressions, e.type ≠ ExpressionType.VALUE_DEFAULT) →
      DuckLakeCatalog.PlanUpdate op = .ok { expressions := op.expressions }) := by
  refine ⟨?_, ?_, ?_⟩
  · intro h
    unfold DuckLakeCatalog.PlanUpdate
    rw [if_pos h]
  · intro h hex
    unfold DuckLakeCatalog.PlanUpdate
    have hany : op.expressions.any (fun e => e.type == ExpressionType.VALUE_DEFAULT) = true := by
      rcases hex with ⟨e, he, ht⟩
      exact List.any_eq_true.mpr ⟨e, he, by simp [ht]⟩
    rw [if_neg (by simp [h]), if_pos hany]
  · intro h hall
    unfold DuckLakeCatalog.PlanUpdate
    have hany : op.expressions.any (fun e => e.type == ExpressionType.VALUE_DEFAULT) = false := by
      rw [Bool.eq_false_iff]
      intro han
      rcases List.any_eq_true.mp han with ⟨e, he, ht⟩
      exact hall e he (by simpa using ht)
    rw [if_neg (by simp [h]), hany, if_neg (by decide : ¬(false = true))]

/-- Witness for C10 at three concrete update shapes. -/
theorem C10_plan_update_rejects_witness :
    DuckLakeCatalog.PlanUpdate { return_chunk := true, expressions := [] }
      = .error
        (.binderException "RETURNING clause not yet supported for updates of a DuckLake table") ∧
    DuckLakeCatalog.PlanUpdate
        { return_chunk := false, expressions := [{ type := .VALUE_DEFAULT }] }
      = .error
        (.binderException "SET DEFAULT is not yet supported for updates of a DuckLake table") ∧
    DuckLakeCatalog.PlanUpdate { return_chunk := false, expressions := [{ type := .OTHER }] }
      = .ok { expressions := [{ type := .OTHER }] } :=
  ⟨(C10_plan_update_rejects { return_chunk := true, expressions := [] }).1 rfl,
   (C10_plan_update_rejects
      { return_chunk := false, expressions := [{ type := .VALUE_DEFAULT }] }).2.1 rfl
     ⟨{ type := .VALUE_DEFAULT }, by decide, rfl⟩,
   (C10_plan_update_rejects
      { return_chunk := false, expressions := [{ type := .OTHER }] }).2.2 rfl (by decide)⟩

end DuckLake
